import Mathlib

/-!
Verification development for the visualCaseGen configuration constraint
engine.  The z3 formula fragment used by the engine is deeply embedded as
`Formula`; solver calls (`z3.Solver.check`) are modelled by an oracle
parameter `check : List Formula → Bool`, related to the semantic
satisfiability predicate `Satisfiable` through explicit hypotheses.
Python dicts are modelled as insertion-ordered association lists.
-/

/-- The fragment of z3 formulas built by the engine: string-valued
variables (identified by name) compared against string literals, and the
boolean connectives used in `relational_assertions.py`. -/
inductive Formula where
  | tt : Formula
  | eqc (v c : String) : Formula
  | Not (f : Formula) : Formula
  | And (f g : Formula) : Formula
  | Or (f g : Formula) : Formula
  | Implies (f g : Formula) : Formula
deriving DecidableEq, Repr

/-- Evaluation of a formula under a valuation of the string variables. -/
def Formula.eval (m : String → String) : Formula → Bool
  | .tt => true
  | .eqc v c => m v == c
  | .Not f => !(f.eval m)
  | .And f g => f.eval m && g.eval m
  | .Or f g => f.eval m || g.eval m
  | .Implies f g => !(f.eval m) || g.eval m

/-- `var != const`, as used by the relational assertions. -/
def Formula.nec (v c : String) : Formula := .Not (.eqc v c)

/-- z3's `Or([...])` over a list of disjuncts (empty list is false). -/
def OrList (l : List Formula) : Formula := l.foldr Formula.Or (.Not .tt)

/-- z3's `And([...])` over a list of conjuncts (empty list is true). -/
def AndList (l : List Formula) : Formula := l.foldr Formula.And .tt

/-- Modelled from the spec: `In(V, [c₁, …, cₙ])` from the missing
`logic_utils.py` is sugar for `V == c₁ ∨ … ∨ V == cₙ` (spec §4.1). -/
def In (v : String) (cs : List String) : Formula := OrList (cs.map (Formula.eqc v))

/-- Modelled from the spec: `When(antecedent, consequent)` from the missing
`logic_utils.py` is compiled to `Implies(antecedent, consequent)`
(spec §4.1); the parent/peer tagging is irrelevant to satisfiability. -/
def When (a c : Formula) : Formula := .Implies a c

/-- A set of assertions is satisfiable when some valuation makes every
member true.  This models the answer an ideal SMT solver returns. -/
def Satisfiable (fs : List Formula) : Prop :=
  ∃ m : String → String, fs.all (fun f => f.eval m) = true

/-- Remove the entry with the given key from an association list
(models `dict.pop(k, None)`; keys are unique in the modelled dicts). -/
def removeKey (k : String) (l : List (String × Formula)) : List (String × Formula) :=
  l.filter (fun p => p.1 != k)

/-- Write a key in an association list: replace in place when present
(Python dict assignment keeps the position of an existing key),
otherwise append. -/
def setKey (k : String) (v : Formula) (l : List (String × Formula)) : List (String × Formula) :=
  if l.any (fun p => p.1 == k) then
    l.map (fun p => if p.1 == k then (k, v) else p)
  else l ++ [(k, v)]

/-- The part of a `ConfigVarBase` instance that the `Logic` class methods
consult: its name, its (optional, ordered) options list (`_options`), its
validities mapping (`_options_validities`), its value trait, and the
`always_set` flag. -/
structure CVar where
  name : String
  options : Option (List String)
  options_validities : List (String × Bool)
  value : Option String
  always_set : Bool
deriving DecidableEq, Repr

/-- `ConfigVarBase.has_options`. -/
def CVar.has_options (v : CVar) : Bool := v.options.isSome

/-- The options list of a variable (callers only use it when
`has_options` holds; absent options behave as the empty list). -/
def CVar.optList (v : CVar) : List String := v.options.getD []

/-- The `Logic` class state: the three assertion dicts
(`asrt_assignments`, `asrt_options`, `asrt_relationals`), modelled as
insertion-ordered association lists with unique keys. -/
structure Logic where
  asrt_assignments : List (String × Formula)
  asrt_options : List (String × Formula)
  asrt_relationals : List (Formula × String)
deriving DecidableEq, Repr

/-- `Logic.add_options`: `asrt_options[var.name] = Or([var==opt for opt in new_opts])`. -/
def Logic.add_options (L : Logic) (var : CVar) (new_opts : List String) : Logic :=
  { L with asrt_options :=
      setKey var.name (OrList (new_opts.map (Formula.eqc var.name))) L.asrt_options }

/-- The assertions `Logic.add_assignment` loads into its solver before the
relational assertions: the remaining assignment assertions (the invoker's
own entry has been popped), the option assertions, and the tentative
`var == new_value` (source lines 85-88). -/
def assignBase (popped : List (String × Formula)) (L : Logic) (vname x : String) : List Formula :=
  popped.map (fun p => p.2) ++ L.asrt_options.map (fun p => p.2) ++ [Formula.eqc vname x]

/-- The first relational-assertion scan of `Logic.add_assignment`
(source lines 96-101): relational assertions are added to the solver one
by one, accumulating, and the scan stops at the first unsat check,
returning that assertion's error message. -/
def firstViol (check : List Formula → Bool) (base : List Formula) :
    List (Formula × String) → Option String
  | [] => none
  | (f, msg) :: rest =>
      if check (base ++ [f]) then firstViol check (base ++ [f]) rest else some msg

/-- The error-message format of `Logic.add_assignment` line 100 and
`Logic.retrieve_error_msg` line 191. -/
def formatViolation (vname x msg : String) : String :=
  vname ++ "=" ++ x ++ " violates assertion:\"" ++ msg ++ "\""

/-- The error-message format of `Logic.add_assignment` line 78. -/
def formatNotAnOption (vname x : String) : String :=
  x ++ " not an option for " ++ vname

/-- Result of `Logic.add_assignment`: the resulting `Logic` state and,
when an `AssertionError` was raised, its message. -/
structure AssignResult where
  state : Logic
  error : Option String
deriving DecidableEq, Repr

/-- Reinsert a popped assignment on rollback (source lines 105-106):
Python dict insertion of a previously popped key appends at the end. -/
def reinsert (popped : List (String × Formula)) (vname : String) :
    Option Formula → List (String × Formula)
  | some a => popped ++ [(vname, a)]
  | none => popped

/-- `Logic.add_assignment(var, new_value, check_sat)` (source lines
63-111), with the z3 `Solver.check` calls supplied by the `check`
oracle.  The validity refresh of line 111 is modelled separately
(`updateLoop`), as it does not touch the `Logic` assertion state. -/
def Logic.add_assignment (check : List Formula → Bool) (L : Logic) (var : CVar)
    (new_value : Option String) (check_sat : Bool) : AssignResult :=
  let old := L.asrt_assignments.lookup var.name
  let popped := removeKey var.name L.asrt_assignments
  match new_value with
  | none => ⟨{ L with asrt_assignments := popped }, none⟩
  | some x =>
      if check_sat && var.has_options && !(var.optList.contains x) then
        ⟨{ L with asrt_assignments := reinsert popped var.name old },
          some (formatNotAnOption var.name x)⟩
      else
        let base := assignBase popped L var.name x
        if check_sat && !(check (base ++ L.asrt_relationals.map (fun p => p.1))) then
          match firstViol check base L.asrt_relationals with
          | some msg =>
              ⟨{ L with asrt_assignments := reinsert popped var.name old },
                some (formatViolation var.name x msg)⟩
          | none =>
              ⟨{ L with asrt_assignments := popped ++ [(var.name, Formula.eqc var.name x)] },
                none⟩
        else
          ⟨{ L with asrt_assignments := popped ++ [(var.name, Formula.eqc var.name x)] },
            none⟩

/-- The solver contents of `Logic.get_options_validities` (source lines
115-119): option assertions, relational assertions, and every assignment
assertion except the queried variable's own. -/
def validityBase (L : Logic) (vname : String) : List Formula :=
  L.asrt_options.map (fun p => p.2) ++ L.asrt_relationals.map (fun p => p.1) ++
    (L.asrt_assignments.filter (fun p => p.1 != vname)).map (fun p => p.2)

/-- `Logic.get_options_validities(var)` (source lines 113-120):
`{opt: s.check(var==opt)==sat for opt in var._options}`. -/
def Logic.get_options_validities (check : List Formula → Bool) (L : Logic) (var : CVar) :
    List (String × Bool) :=
  var.optList.map (fun opt =>
    (opt, check (validityBase L var.name ++ [Formula.eqc var.name opt])))

/-- Result of `Logic.retrieve_error_msg`: either the internal
`RuntimeError` of line 186 or a returned violation message. -/
inductive RetrieveResult where
  | internalError : RetrieveResult
  | msg (s : String) : RetrieveResult
deriving DecidableEq, Repr

/-- The cumulative relational scan of `Logic.retrieve_error_msg` (source
lines 188-191): assertions are added to the solver one by one and
`var == value` is checked as an assumption after each addition. -/
def retrieveScan (check : List Formula → Bool) (acc : List Formula) (assum : Formula) :
    List (Formula × String) → Option String
  | [] => none
  | (f, msg) :: rest =>
      if check (acc ++ [f] ++ [assum]) then retrieveScan check (acc ++ [f]) assum rest
      else some msg

/-- `Logic.retrieve_error_msg(var, value)` (source lines 176-193). -/
def Logic.retrieve_error_msg (check : List Formula → Bool) (L : Logic) (var : CVar)
    (value : String) : RetrieveResult :=
  let sAss := (L.asrt_assignments.filter (fun p => p.1 != var.name)).map (fun p => p.2) ++
    L.asrt_options.map (fun p => p.2)
  if check (sAss ++ [Formula.And (AndList (L.asrt_relationals.map (fun p => p.1)))
      (Formula.eqc var.name value)]) then
    .internalError
  else
    match retrieveScan check sAss (Formula.eqc var.name value) L.asrt_relationals with
    | some m => .msg (formatViolation var.name value m)
    | none => .msg (var.name ++ "=" ++ value ++ " violates multiple assertions.")

/-- Registry lifecycle errors raised by `ProConPy/config_var.py`
(`ProConPyError` / `RuntimeError` sites, named after the spec taxonomy). -/
inductive RegErr where
  | Redefinition : RegErr
  | RegistryLocked : RegErr
  | EmptyRegistry : RegErr
deriving DecidableEq, Repr

/-- The `ConfigVar` class-level registry state: the instance dict
`ConfigVar.vdict` (keys, in creation order) and the `_lock` flag. -/
structure Registry where
  vdict : List String
  lockFlag : Bool
deriving DecidableEq, Repr

/-- The registry checks of `ConfigVar.__init__` (source lines 65-73):
re-definition is rejected first, then instantiation after lock. -/
def Registry.defineVar (R : Registry) (name : String) : Except RegErr Registry :=
  if R.vdict.contains name then .error .Redefinition
  else if R.lockFlag then .error .RegistryLocked
  else .ok { R with vdict := R.vdict ++ [name] }

/-- `ConfigVar.lock` (source lines 130-141): raises when no variables are
defined, otherwise sets `_lock` — there is no already-locked check. -/
def Registry.lock (R : Registry) : Except RegErr Registry :=
  if R.vdict.length == 0 then .error .EmptyRegistry
  else .ok { R with lockFlag := true }

/-- The fields of a `ProConPy.config_var.ConfigVar` instance involved in
`update_options_validities`: `_options` (empty list means no options),
`_options_validities`, the value trait, and `_always_set`. -/
structure PVar where
  options : List String
  options_validities : List (String × Bool)
  value : Option String
  always_set : Bool
deriving DecidableEq, Repr

/-- `ConfigVar.has_options`: `len(self._options) > 0`. -/
def PVar.has_options (v : PVar) : Bool := v.options.length > 0

/-- `ConfigVar.get_first_valid_option` (source lines 302-307): the first
option in declaration order whose validity is `True`, else `None`. -/
def PVar.get_first_valid_option (v : PVar) : Option String :=
  v.options.find? (fun opt => (v.options_validities.lookup opt).getD false)

/-- Python `dict.keys()` equality is set equality of the key views. -/
def keysEquiv (a b : List String) : Bool :=
  a.all (fun k => b.contains k) && b.all (fun k => a.contains k)

/-- Python `dict == dict`: order-insensitive key/value equality
(keys are unique in the modelled validity dicts). -/
def dictEqualBool (a b : List (String × Bool)) : Bool :=
  a.all (fun p => b.lookup p.1 == some p.2) && b.all (fun p => a.lookup p.1 == some p.2)

/-- `ConfigVar.update_options_validities` (source lines 209-258), with
the `csp.get_options_validities(self)` result supplied as `newvals`.
If nothing changed, return; if the key sets differ (the options list
changed), an `always_set` variable is re-assigned to its first valid
option and any other variable is reset to `None`; if only validities
changed, the value is left untouched (only the widget is refreshed). -/
def PVar.update_options_validities (v : PVar) (newvals : List (String × Bool)) : PVar :=
  let old := v.options_validities
  let v' : PVar := { v with options_validities := newvals }
  if dictEqualBool newvals old then v'
  else if !(keysEquiv (old.map (fun p => p.1)) (newvals.map (fun p => p.1))) then
    if v.always_set then { v' with value := v'.get_first_valid_option }
    else if v.value.isSome then { v' with value := none }
    else v'
  else v'

/-- An engine snapshot for the assignment path: the `Logic` assertion
state together with every variable's instance state (value trait and
validities), keyed by name. -/
structure Engine where
  logic : Logic
  vars : List (String × CVar)
deriving DecidableEq, Repr

/-- Set the value trait of one variable in the instance dict. -/
def setVarValue (vars : List (String × CVar)) (vname x : String) : List (String × CVar) :=
  vars.map (fun p => if p.1 == vname then (p.1, { p.2 with value := some x }) else p)

/-- The assignment entry point `V.value = x`: the trait validator runs
`Logic.add_assignment`; when it raises, the trait is never written and no
validity refresh runs (`config_var_base.py` line 111 is unreachable and
`ConfigVar._post_value_change` fires only after a successful change).
On success the value trait is set and the validity refresh — abstracted
as `refresh`, since its content is irrelevant to the rollback claim —
is applied to the instance dict. -/
def Engine.assign (check : List Formula → Bool)
    (refresh : List (String × CVar) → List (String × CVar))
    (E : Engine) (var : CVar) (x : String) : Engine × Option String :=
  let r := Logic.add_assignment check E.logic var (some x) true
  match r.error with
  | some e => ({ E with logic := r.state }, some e)
  | none => ({ logic := r.state, vars := refresh (setVarValue E.vars var.name x) }, none)

/-- Per-variable validity stores for the propagation pass, keyed by name. -/
def Vals := List (String × List (String × Bool))

/-- The worklist loop of `Logic._update_all_options_validities` (source
lines 160-171), abstracted over the fixed per-pass data: `related` maps a
variable to its `_related_vars` (self excluded), `hasOpts` is
`has_options`, and `newVal` is the solver recomputation
`__eval_new_validities` (constant during one pass, since the assignment
assertions do not change while the loop runs).  `fuel` bounds the number
of iterations; the source's `while` loop corresponds to sufficient fuel. -/
def updateLoop (related : String → List String) (hasOpts : String → Bool)
    (newVal : String → List (String × Bool)) (fuel : Nat) (affected : List String)
    (ivar : Nat) (vals : Vals) : Option (Vals × List String) :=
  if h : ivar < affected.length then
    match fuel with
    | 0 => none
    | fuel + 1 =>
      let var := affected.get ⟨ivar, h⟩
      if hasOpts var then
        let nv := newVal var
        if nv ≠ ((vals : List (String × List (String × Bool))).lookup var).getD [] then
          updateLoop related hasOpts newVal fuel
            (affected ++ (related var).filter (fun w => !(affected.contains w)))
            (ivar + 1)
            (vals.map (fun p => if p.1 == var then (p.1, nv) else p) ++
              (if (vals : List (String × List (String × Bool))).all (fun p => p.1 != var)
                then [(var, nv)] else []))
        else updateLoop related hasOpts newVal fuel affected (ivar + 1) vals
      else updateLoop related hasOpts newVal fuel affected (ivar + 1) vals
  else some (vals, affected)

/-- `Logic._update_all_options_validities(invoker_var)`: the worklist is
seeded with the invoker followed by its related variables, and scanning
starts at index 1 (the invoker itself is not recomputed). -/
def update_all_options_validities (related : String → List String) (hasOpts : String → Bool)
    (newVal : String → List (String × Bool)) (fuel : Nat) (invoker : String) (vals : Vals) :
    Option (Vals × List String) :=
  updateLoop related hasOpts newVal fuel (invoker :: related invoker) 1 vals

/-- Relation 1 of `relational_assertions.py` (z3's n-ary `And` nested). -/
def c4r1 : Formula :=
  .Implies (.eqc "COMP_ICE" "sice")
    (.And (.eqc "COMP_LND" "slnd") (.And (.eqc "COMP_OCN" "socn")
      (.And (.eqc "COMP_ROF" "srof") (.eqc "COMP_GLC" "sglc"))))

/-- Relation 2 of `relational_assertions.py`. -/
def c4r2 : Formula := .Implies (.eqc "COMP_OCN" "mom") (Formula.nec "COMP_WAV" "dwav")

/-- Relation 3 of `relational_assertions.py`: CAM cannot be coupled with Data ICE. -/
def c4r3 : Formula := .Implies (.eqc "COMP_ATM" "cam") (Formula.nec "COMP_ICE" "dice")

/-- The relational assertion dict of `relational_assertions_setter`, in
source order, with the source error messages. -/
def c4rels : List (Formula × String) :=
  [ (c4r1, "If COMP_ICE is stub, all other components must be stub (except for ATM)"),
    (c4r2, "MOM6 cannot be coupled with data wave component."),
    (c4r3, "CAM cannot be coupled with Data ICE."),
    (.Implies (.eqc "COMP_WAV" "ww3") (In "COMP_OCN" ["mom", "pop"]),
      "WW3 can only be selected if either POP2 or MOM6 is the ocean component."),
    (.Implies (.Or (.eqc "COMP_ROF" "rtm") (.eqc "COMP_ROF" "mosart")) (.eqc "COMP_LND" "clm"),
      "If running with RTM|MOSART, CLM must be selected as the land component."),
    (.Implies (.And (In "COMP_OCN" ["pop", "mom"]) (.eqc "COMP_ATM" "datm"))
        (.eqc "COMP_LND" "slnd"),
      "When MOM|POP is forced with DATM, LND must be stub."),
    (.Implies (.eqc "COMP_OCN" "mom")
        (.Or (Formula.nec "COMP_LND" "slnd") (Formula.nec "COMP_ICE" "sice")),
      "LND or ICE must be present to hide MOM6 grid poles."),
    (.Implies (.And (.eqc "COMP_ATM" "datm") (.eqc "COMP_LND" "clm"))
        (.And (.eqc "COMP_ICE" "sice") (.eqc "COMP_OCN" "socn")),
      "If CLM is coupled with DATM, then both ICE and OCN must be stub."),
    (When (.eqc "COMP_OCN" "docn") (Formula.nec "COMP_OCN_OPTION" "(none)"),
      "Must pick a valid DOCN option."),
    (When (.eqc "COMP_ICE" "dice") (Formula.nec "COMP_ICE_OPTION" "(none)"),
      "Must pick a valid DICE option."),
    (When (.eqc "COMP_ATM" "datm") (Formula.nec "COMP_ATM_OPTION" "(none)"),
      "Must pick a valid DATM option."),
    (When (.eqc "COMP_ROF" "drof") (Formula.nec "COMP_ROF_OPTION" "(none)"),
      "Must pick a valid DROF option."),
    (When (.eqc "COMP_WAV" "dwav") (Formula.nec "COMP_WAV_OPTION" "(none)"),
      "Must pick a valid DWAV option."),
    (When (In "COMP_LND" ["clm", "dlnd"]) (Formula.nec "COMP_LND_OPTION" "(none)"),
      "Must pick a valid LND option."),
    (When (.eqc "COMP_GLC" "cism") (Formula.nec "COMP_GLC_OPTION" "(none)"),
      "Must pick a valid GLC option."),
    (When (.And (.eqc "COMP_ICE" "cice") (.eqc "COMP_OCN" "docn"))
        (.eqc "COMP_OCN_OPTION" "SOM"),
      "When DOCN is coupled with CICE, DOCN option must be set to SOM.") ]

/-- Modelled from the spec: the options lists registered by the missing
initialization code (`initialize_configvars` / the CIME catalog); the
component identifiers follow the spec's seed scenarios and the relational
assertions, and `"(none)"` is the inactive choice of the option
variables. -/
def c4optLists : List (String × List String) :=
  [ ("COMPSET_MODE", ["Standard", "Custom"]),
    ("INITTIME", ["1850", "2000", "HIST"]),
    ("COMP_ATM", ["cam", "datm", "satm"]),
    ("COMP_LND", ["clm", "dlnd", "slnd"]),
    ("COMP_ICE", ["cice", "dice", "sice"]),
    ("COMP_OCN", ["mom", "pop", "docn", "socn"]),
    ("COMP_ROF", ["rtm", "mosart", "drof", "srof"]),
    ("COMP_GLC", ["cism", "sglc"]),
    ("COMP_WAV", ["ww3", "dwav", "swav"]),
    ("COMP_ATM_OPTION", ["(none)", "CORE2"]),
    ("COMP_LND_OPTION", ["(none)", "SP"]),
    ("COMP_ICE_OPTION", ["(none)", "SSMI"]),
    ("COMP_OCN_OPTION", ["(none)", "SOM"]),
    ("COMP_ROF_OPTION", ["(none)", "DIATREN"]),
    ("COMP_GLC_OPTION", ["(none)", "EVOLVE"]),
    ("COMP_WAV_OPTION", ["(none)", "CLIMO"]) ]

/-- Option-domain assertions built as `Logic.add_options` builds them. -/
def mkOptionAsrts (l : List (String × List String)) : List (String × Formula) :=
  l.map (fun p => (p.1, OrList (p.2.map (Formula.eqc p.1))))

/-- The `Logic` state of the C4 scenario right after startup: no
assignments, the spec-modelled option assertions, and the standard
relational assertion set. -/
def c4L0 : Logic := ⟨[], mkOptionAsrts c4optLists, c4rels⟩

/-- A variable record of the C4 scenario, with its spec-modelled options. -/
def c4var (name : String) : CVar :=
  ⟨name, some ((c4optLists.lookup name).getD []), [], none, false⟩

/-- The four assignments of the C4 scenario, in test order
(`test_constraint_violation_detection`): `COMPSET_MODE:="Custom"`,
`INITTIME:="2000"`, `COMP_ATM:="cam"`, then the failing
`COMP_ICE:="dice"`. -/
def runC4 (check : List Formula → Bool) : AssignResult :=
  let s1 := Logic.add_assignment check c4L0 (c4var "COMPSET_MODE") (some "Custom") true
  let s2 := Logic.add_assignment check s1.state (c4var "INITTIME") (some "2000") true
  let s3 := Logic.add_assignment check s2.state (c4var "COMP_ATM") (some "cam") true
  Logic.add_assignment check s3.state (c4var "COMP_ICE") (some "dice") true

/-- A total valuation from an association list (unlisted names map to ""). -/
def mkModel (l : List (String × String)) : String → String :=
  fun v => (l.lookup v).getD ""

/-- A fully consistent configuration with `COMP_ATM = "cam"`: witnesses
the satisfiability of the three successful assignments of the C4
scenario. -/
def c4model1 : String → String :=
  mkModel [("COMPSET_MODE", "Custom"), ("INITTIME", "2000"),
    ("COMP_ATM", "cam"), ("COMP_LND", "clm"), ("COMP_ICE", "cice"),
    ("COMP_OCN", "mom"), ("COMP_ROF", "srof"), ("COMP_GLC", "sglc"),
    ("COMP_WAV", "swav"), ("COMP_ATM_OPTION", "(none)"),
    ("COMP_LND_OPTION", "SP"), ("COMP_ICE_OPTION", "(none)"),
    ("COMP_OCN_OPTION", "(none)"), ("COMP_ROF_OPTION", "(none)"),
    ("COMP_GLC_OPTION", "(none)"), ("COMP_WAV_OPTION", "(none)")]

/-- A configuration with `COMP_ICE = "dice"` that satisfies the option
assertions, the previous assignments, and the first two relational
assertions: witnesses the satisfiability of the first two scan prefixes
of the failing `COMP_ICE:="dice"` assignment. -/
def c4model2 : String → String :=
  mkModel [("COMPSET_MODE", "Custom"), ("INITTIME", "2000"),
    ("COMP_ATM", "cam"), ("COMP_LND", "slnd"), ("COMP_ICE", "dice"),
    ("COMP_OCN", "socn"), ("COMP_ROF", "srof"), ("COMP_GLC", "sglc"),
    ("COMP_WAV", "swav"), ("COMP_ATM_OPTION", "(none)"),
    ("COMP_LND_OPTION", "(none)"), ("COMP_ICE_OPTION", "SSMI"),
    ("COMP_OCN_OPTION", "(none)"), ("COMP_ROF_OPTION", "(none)"),
    ("COMP_GLC_OPTION", "(none)"), ("COMP_WAV_OPTION", "(none)")]

/-- A concrete solver for the C4 scenario: a query is reported
satisfiable when one of the two candidate configurations satisfies it.
This oracle answers every query of the scenario correctly. -/
def chkC4 (fs : List Formula) : Bool :=
  fs.all (fun f => f.eval c4model1) || fs.all (fun f => f.eval c4model2)

lemma lookup_map_self (g : String → Bool) (l : List String) (o : String) (ho : o ∈ l) :
    (l.map (fun x => (x, g x))).lookup o = some (g o) := by
  induction l with
  | nil => cases ho
  | cons a t ih =>
      by_cases h : o = a
      · subst h
        simp [List.lookup]
      · rcases List.mem_cons.mp ho with h' | h'
        · exact absurd h' h
        · simpa [List.lookup, beq_false_of_ne h] using ih h'

lemma satisfiable_congr {l₁ l₂ : List Formula} (h : ∀ f, f ∈ l₁ ↔ f ∈ l₂) :
    Satisfiable l₁ ↔ Satisfiable l₂ := by
  unfold Satisfiable
  constructor
  · rintro ⟨m, hm⟩
    refine ⟨m, List.all_eq_true.mpr fun f hf => ?_⟩
    exact List.all_eq_true.mp hm f ((h f).mpr hf)
  · rintro ⟨m, hm⟩
    refine ⟨m, List.all_eq_true.mpr fun f hf => ?_⟩
    exact List.all_eq_true.mp hm f ((h f).mp hf)

/-- C1: for a variable `V` with a finite options list and an option `o`,
`Logic.get_options_validities` maps `o` to `true` iff the conjunction of
all current assignment assertions except `V`'s own, all option-domain
assertions, all relational assertions, and the tentative `V == o` is
satisfiable — provided the solver answers the corresponding query
correctly. -/
theorem get_options_validities_correct (check : List Formula → Bool) (L : Logic)
    (var : CVar) (o : String) (ho : o ∈ var.optList)
    (hc : check (validityBase L var.name ++ [Formula.eqc var.name o]) = true ↔
      Satisfiable (validityBase L var.name ++ [Formula.eqc var.name o])) :
    (Logic.get_options_validities check L var).lookup o = some true ↔
      Satisfiable ((L.asrt_assignments.filter (fun p => p.1 != var.name)).map (fun p => p.2) ++
        L.asrt_options.map (fun p => p.2) ++ L.asrt_relationals.map (fun p => p.1) ++
        [Formula.eqc var.name o]) := by
  have hl := lookup_map_self
    (fun opt => check (validityBase L var.name ++ [Formula.eqc var.name opt])) var.optList o ho
  unfold Logic.get_options_validities
  rw [hl, Option.some_inj, hc]
  refine satisfiable_congr fun f => ?_
  simp only [validityBase, List.mem_append]
  tauto

/-- Witness for C1 at a concrete input: in the startup state of the C4
scenario, with the two-model solver `chkC4`, the option `"Custom"` of
`COMPSET_MODE` is reported valid, and the corresponding assertion set is
indeed satisfiable. -/
theorem get_options_validities_correct_witness :
    ("Custom" ∈ (c4var "COMPSET_MODE").optList) ∧
      ((Logic.get_options_validities chkC4 c4L0 (c4var "COMPSET_MODE")).lookup "Custom" =
          some true ↔
        Satisfiable ((c4L0.asrt_assignments.filter
            (fun p => p.1 != (c4var "COMPSET_MODE").name)).map (fun p => p.2) ++
          c4L0.asrt_options.map (fun p => p.2) ++ c4L0.asrt_relationals.map (fun p => p.1) ++
          [Formula.eqc (c4var "COMPSET_MODE").name "Custom"])) :=
  ⟨by decide,
    get_options_validities_correct chkC4 c4L0 (c4var "COMPSET_MODE") "Custom" (by decide)
      (iff_of_true (by decide) ⟨c4model1, by decide⟩)⟩

lemma firstViol_first (check : List Formula → Bool) :
    ∀ (pre : List (Formula × String)) (base : List Formula) (f : Formula) (msg : String)
      (post : List (Formula × String)),
      (∀ k, k < pre.length →
        check (base ++ (pre.take (k + 1)).map (fun p => p.1)) = true) →
      check (base ++ pre.map (fun p => p.1) ++ [f]) = false →
      firstViol check base (pre ++ (f, msg) :: post) = some msg
  | [], base, f, msg, post, _, hf => by
      simp only [List.nil_append, firstViol]
      rw [List.map_nil, List.append_nil] at hf
      rw [hf]
      simp
  | (g, m0) :: pre', base, f, msg, post, hpre, hf => by
      have h0 : check (base ++ [g]) = true := by
        have := hpre 0 (by simp)
        simpa using this
      simp only [List.cons_append, firstViol, h0, if_true]
      refine firstViol_first check pre' (base ++ [g]) f msg post ?_ ?_
      · intro k hk
        have := hpre (k + 1) (by simpa using Nat.succ_lt_succ hk)
        simpa [List.append_assoc] using this
      · simpa [List.append_assoc] using hf

/-- C2 (amended): when an assignment `V := x` passes the options check
but the full satisfiability check fails, the `ConstraintViolation`
message reports exactly the error string of the FIRST relational
assertion (in registration order) whose addition to the accumulating
solver state produces unsat — later violated relations are not
reported — and the popped assignment is reinserted. -/
theorem add_assignment_reports_first_violation (check : List Formula → Bool) (L : Logic)
    (var : CVar) (x : String) (pre : List (Formula × String)) (f : Formula) (msg : String)
    (post : List (Formula × String))
    (hmem : (var.has_options && !(var.optList.contains x)) = false)
    (hrels : L.asrt_relationals = pre ++ (f, msg) :: post)
    (hfull : check (assignBase (removeKey var.name L.asrt_assignments) L var.name x ++
      L.asrt_relationals.map (fun p => p.1)) = false)
    (hpre : ∀ k, k < pre.length →
      check (assignBase (removeKey var.name L.asrt_assignments) L var.name x ++
        (pre.take (k + 1)).map (fun p => p.1)) = true)
    (hf : check (assignBase (removeKey var.name L.asrt_assignments) L var.name x ++
      pre.map (fun p => p.1) ++ [f]) = false) :
    Logic.add_assignment check L var (some x) true =
      ⟨{ L with asrt_assignments := (reinsert (removeKey var.name L.asrt_assignments)
          var.name (L.asrt_assignments.lookup var.name)) },
        some (formatViolation var.name x msg)⟩ := by
  unfold Logic.add_assignment
  simp only [Bool.true_and, hmem, Bool.false_eq_true, if_false, hfull, Bool.not_false,
    Bool.and_true, if_true]
  rw [hrels, firstViol_first check pre _ f msg post hpre hf]

/-- A variable with options `["a", "b"]` for the C2 counterexample. -/
def ceVar : CVar := ⟨"V", some ["a", "b"], [], none, false⟩

/-- A logic state with two relational assertions that each individually
contradict `V == "a"`: the first forbids `V == "a"` outright, the second
forces `V == "b"`. -/
def ceL : Logic :=
  ⟨[], [("V", OrList (["a", "b"].map (Formula.eqc "V")))],
    [(Formula.Not (.eqc "V" "a"), "FIRST"), (Formula.eqc "V" "b", "SECOND")]⟩

/-- A solver for the counterexample state: both queries that
`Logic.add_assignment` issues there are unsatisfiable, so the constant
`false` answer is correct. -/
def ceCheck (_ : List Formula) : Bool := false

lemma ce_full_unsat :
    ¬ Satisfiable (assignBase (removeKey "V" ceL.asrt_assignments) ceL "V" "a" ++
      ceL.asrt_relationals.map (fun p => p.1)) := by
  rintro ⟨m, hm⟩
  simp [assignBase, ceL, removeKey, OrList, Formula.eval, List.all] at hm
  simp [hm.2.1] at hm

lemma ce_first_unsat :
    ¬ Satisfiable (assignBase (removeKey "V" ceL.asrt_assignments) ceL "V" "a" ++
      [Formula.Not (.eqc "V" "a")]) := by
  rintro ⟨m, hm⟩
  simp [assignBase, ceL, removeKey, OrList, Formula.eval, List.all] at hm

lemma ce_second_unsat :
    ¬ Satisfiable (assignBase (removeKey "V" ceL.asrt_assignments) ceL "V" "a" ++
      [Formula.eqc "V" "b"]) := by
  rintro ⟨m, hm⟩
  simp [assignBase, ceL, removeKey, OrList, Formula.eval, List.all] at hm
  simp [hm.2.1] at hm

/-- C2 (counterexample): with a correct solver, in a state where BOTH
relational assertions individually make `V == "a"` unsat, the error of
`Logic.add_assignment` is exactly the first relation's formatted message
and the second relation's error string `"SECOND"` does not occur in it —
so the message is not the concatenation of all violated relations'
error strings. -/
theorem add_assignment_not_all_violations :
    ((ceCheck (assignBase (removeKey "V" ceL.asrt_assignments) ceL "V" "a" ++
        ceL.asrt_relationals.map (fun p => p.1)) = true ↔
      Satisfiable (assignBase (removeKey "V" ceL.asrt_assignments) ceL "V" "a" ++
        ceL.asrt_relationals.map (fun p => p.1))) ∧
     (ceCheck (assignBase (removeKey "V" ceL.asrt_assignments) ceL "V" "a" ++
        [Formula.Not (.eqc "V" "a")]) = true ↔
      Satisfiable (assignBase (removeKey "V" ceL.asrt_assignments) ceL "V" "a" ++
        [Formula.Not (.eqc "V" "a")]))) ∧
    ¬ Satisfiable (assignBase (removeKey "V" ceL.asrt_assignments) ceL "V" "a" ++
        [Formula.eqc "V" "b"]) ∧
    (Logic.add_assignment ceCheck ceL ceVar (some "a") true).error =
      some "V=a violates assertion:\"FIRST\"" ∧
    ¬ List.IsInfix "SECOND".toList "V=a violates assertion:\"FIRST\"".toList := by
  refine ⟨⟨iff_of_false (by decide) ce_full_unsat, iff_of_false (by decide) ce_first_unsat⟩,
    ce_second_unsat, by decide, by decide⟩

/-- Witness for the amended C2 theorem at a concrete input: in the
counterexample state the first relation is the first violated one, and
the error message is its formatted string. -/
theorem add_assignment_reports_first_violation_witness :
    Logic.add_assignment ceCheck ceL ceVar (some "a") true =
      ⟨{ ceL with asrt_assignments := (reinsert (removeKey ceVar.name ceL.asrt_assignments)
          ceVar.name (ceL.asrt_assignments.lookup ceVar.name)) },
        some (formatViolation ceVar.name "a" "FIRST")⟩ :=
  add_assignment_reports_first_violation ceCheck ceL ceVar "a" []
    (Formula.Not (.eqc "V" "a")) "FIRST" [(Formula.eqc "V" "b", "SECOND")]
    (by decide) rfl rfl (fun k hk => absurd hk (by simp)) rfl

lemma lookup_removeKey (k n : String) (l : List (String × Formula)) :
    (removeKey n l).lookup k = if k = n then none else l.lookup k := by
  induction l with
  | nil => simp [removeKey, List.lookup]
  | cons p t ih =>
      obtain ⟨a, b⟩ := p
      by_cases hp : a = n
      · have hb : ((a, b).1 != n) = false := by simp [hp]
        rw [removeKey, List.filter_cons, hb]
        simp only [Bool.false_eq_true, if_false]
        rw [removeKey] at ih
        rw [ih]
        by_cases hk : k = n
        · simp [hk]
        · have hka : (k == a) = false := by
            subst hp
            simpa using hk
          simp [hk, List.lookup, hka]
      · have hb : ((a, b).1 != n) = true := by simpa using hp
        rw [removeKey, List.filter_cons, hb]
        simp only [if_true]
        rw [removeKey] at ih
        by_cases hka : k = a
        · subst hka
          have hkn : ¬ k = n := hp
          simp [List.lookup, hkn]
        · have hka' : (k == a) = false := by simpa using hka
          simp [List.lookup, hka', ih]

lemma lookup_append_formula (k : String) (l₁ l₂ : List (String × Formula)) :
    (l₁ ++ l₂).lookup k = ((l₁.lookup k).orElse (fun _ => l₂.lookup k)) := by
  induction l₁ with
  | nil => simp [List.lookup]
  | cons p t ih =>
      obtain ⟨a, b⟩ := p
      by_cases h : k = a
      · subst h
        simp [List.lookup, Option.orElse]
      · have h' : (k == a) = false := by simpa using h
        simp [List.lookup, h', ih]

lemma rollback_lookup (n : String) (l : List (String × Formula)) (k : String) :
    (reinsert (removeKey n l) n (l.lookup n)).lookup k = l.lookup k := by
  cases hn : l.lookup n with
  | none =>
      simp only [reinsert]
      rw [lookup_removeKey]
      by_cases hk : k = n
      · simp [hk, hn]
      · simp [hk]
  | some a =>
      simp only [reinsert]
      rw [lookup_append_formula, lookup_removeKey]
      by_cases hk : k = n
      · subst hk
        simp [List.lookup, hn, Option.orElse]
      · simp [hk, Option.orElse]
        cases l.lookup k with
        | none =>
            have : (k == n) = false := by simpa using hk
            simp [List.lookup, this]
        | some b => rfl

lemma add_assignment_error_state (check : List Formula → Bool) (L : Logic) (var : CVar)
    (x : String) (st' : Logic) (e : String)
    (h : Logic.add_assignment check L var (some x) true = ⟨st', some e⟩) :
    st'.asrt_assignments = reinsert (removeKey var.name L.asrt_assignments) var.name
        (L.asrt_assignments.lookup var.name) ∧
      st'.asrt_options = L.asrt_options ∧ st'.asrt_relationals = L.asrt_relationals := by
  simp only [Logic.add_assignment] at h
  split at h
  · injection h with h1 h2
    subst h1
    exact ⟨rfl, rfl, rfl⟩
  · split at h
    · split at h
      · injection h with h1 h2
        subst h1
        exact ⟨rfl, rfl, rfl⟩
      · exact absurd (congrArg AssignResult.error h) (by simp)
    · exact absurd (congrArg AssignResult.error h) (by simp)

/-- C3: a rejected assignment (`NotAnOption` or `ConstraintViolation`)
leaves the engine state unchanged: the per-variable assignment-assertion
mapping is extensionally identical (the popped entry is reinserted), the
option and relational assertion stores are untouched, and every
variable's value trait and validities are untouched (the trait validator
raises before the value is written, and the validity refresh of
`config_var_base.py` line 111 is never reached). -/
theorem assign_rejected_preserves_state (check : List Formula → Bool)
    (refresh : List (String × CVar) → List (String × CVar)) (E : Engine) (var : CVar)
    (x : String) (E' : Engine) (e : String)
    (h : Engine.assign check refresh E var x = (E', some e)) :
    (∀ k, E'.logic.asrt_assignments.lookup k = E.logic.asrt_assignments.lookup k) ∧
      E'.logic.asrt_options = E.logic.asrt_options ∧
      E'.logic.asrt_relationals = E.logic.asrt_relationals ∧
      E'.vars = E.vars := by
  simp only [Engine.assign] at h
  split at h
  · rename_i e0 herr
    have hE : E' = { E with logic := (Logic.add_assignment check E.logic var (some x) true).state } := by
      have := congrArg Prod.fst h
      simpa using this.symm
    have hr : Logic.add_assignment check E.logic var (some x) true =
        ⟨(Logic.add_assignment check E.logic var (some x) true).state, some e0⟩ := by
      rw [← herr]
    obtain ⟨h1, h2, h3⟩ := add_assignment_error_state check E.logic var x _ e0 hr
    subst hE
    exact ⟨fun k => by rw [h1, rollback_lookup], h2, h3, rfl⟩
  · exact absurd (congrArg Prod.snd h) (by simp)

/-- Witness for C3 at a concrete input: in the C2 counterexample state
the assignment `V := "a"` is rejected, and the engine state is preserved
extensionally. -/
theorem assign_rejected_preserves_state_witness :
    (∀ k, ((Engine.assign ceCheck id ⟨ceL, [("V", ceVar)]⟩ ceVar "a").1.logic.asrt_assignments.lookup k =
        ceL.asrt_assignments.lookup k)) ∧
      (Engine.assign ceCheck id ⟨ceL, [("V", ceVar)]⟩ ceVar "a").1.logic.asrt_options =
        ceL.asrt_options ∧
      (Engine.assign ceCheck id ⟨ceL, [("V", ceVar)]⟩ ceVar "a").1.logic.asrt_relationals =
        ceL.asrt_relationals ∧
      (Engine.assign ceCheck id ⟨ceL, [("V", ceVar)]⟩ ceVar "a").1.vars = [("V", ceVar)] :=
  assign_rejected_preserves_state ceCheck id ⟨ceL, [("V", ceVar)]⟩ ceVar "a"
    (Engine.assign ceCheck id ⟨ceL, [("V", ceVar)]⟩ ceVar "a").1
    "V=a violates assertion:\"FIRST\"" (by decide)

lemma eval_AndList (m : String → String) (l : List Formula) :
    (AndList l).eval m = l.all (fun f => f.eval m) := by
  induction l with
  | nil => simp [AndList, Formula.eval]
  | cons f t ih =>
      show (Formula.And f (AndList t)).eval m = _
      simp [Formula.eval, ih, List.all_cons]

lemma satisfiable_guard_iff (sAss rels : List Formula) (g : Formula) :
    Satisfiable (sAss ++ [Formula.And (AndList rels) g]) ↔
      Satisfiable (sAss ++ rels ++ [g]) := by
  unfold Satisfiable
  constructor
  · rintro ⟨m, hm⟩
    refine ⟨m, ?_⟩
    simp only [List.all_append, List.all_cons, List.all_nil, Formula.eval, eval_AndList,
      Bool.and_eq_true] at hm ⊢
    tauto
  · rintro ⟨m, hm⟩
    refine ⟨m, ?_⟩
    simp only [List.all_append, List.all_cons, List.all_nil, Formula.eval, eval_AndList,
      Bool.and_eq_true] at hm ⊢
    tauto

/-- C10: `Logic.retrieve_error_msg` returns its internal `RuntimeError`
exactly when the tentative assignment is satisfiable together with all
other assignment assertions, all option assertions, and all relational
assertions — so a violation message is produced only for genuinely
unsatisfiable assignments — provided the solver answers the guard query
correctly. -/
theorem retrieve_error_msg_guard (check : List Formula → Bool) (L : Logic) (var : CVar)
    (value : String)
    (hc : check ((L.asrt_assignments.filter (fun p => p.1 != var.name)).map (fun p => p.2) ++
        L.asrt_options.map (fun p => p.2) ++
        [Formula.And (AndList (L.asrt_relationals.map (fun p => p.1)))
          (Formula.eqc var.name value)]) = true ↔
      Satisfiable ((L.asrt_assignments.filter (fun p => p.1 != var.name)).map (fun p => p.2) ++
        L.asrt_options.map (fun p => p.2) ++
        [Formula.And (AndList (L.asrt_relationals.map (fun p => p.1)))
          (Formula.eqc var.name value)])) :
    (Logic.retrieve_error_msg check L var value = .internalError ↔
      Satisfiable ((L.asrt_assignments.filter (fun p => p.1 != var.name)).map (fun p => p.2) ++
        L.asrt_options.map (fun p => p.2) ++ L.asrt_relationals.map (fun p => p.1) ++
        [Formula.eqc var.name value])) := by
  have hflat := satisfiable_guard_iff
    ((L.asrt_assignments.filter (fun p => p.1 != var.name)).map (fun p => p.2) ++
      L.asrt_options.map (fun p => p.2))
    (L.asrt_relationals.map (fun p => p.1)) (Formula.eqc var.name value)
  simp only [Logic.retrieve_error_msg]
  constructor
  · intro h
    split at h
    · rename_i hchk
      exact hflat.mp (hc.mp hchk)
    · exfalso
      revert h
      split <;> simp
  · intro hs
    have hchk := hc.mpr (hflat.mpr hs)
    simp only [hchk, if_true]

/-- Witness for C10 at a concrete input: in the C2 counterexample state
the assignment `V := "b"` is satisfiable with everything, and
`retrieve_error_msg`, called with a correct solver, raises its internal
error instead of producing a violation message. -/
theorem retrieve_error_msg_guard_witness :
    Logic.retrieve_error_msg (fun fs => fs.all (fun f => f.eval (mkModel [("V", "b")])))
      ceL ceVar "b" = .internalError :=
  (retrieve_error_msg_guard (fun fs => fs.all (fun f => f.eval (mkModel [("V", "b")])))
      ceL ceVar "b"
      (iff_of_true (by decide) ⟨mkModel [("V", "b")], by decide⟩)).mpr
    ⟨mkModel [("V", "b")], by decide⟩

lemma lookup_mem_keys {β : Type} (k : String) (l : List (String × β)) (v : β)
    (h : l.lookup k = some v) : k ∈ l.map (fun p => p.1) := by
  induction l with
  | nil => simp [List.lookup] at h
  | cons p t ih =>
      obtain ⟨a, b⟩ := p
      by_cases hk : k = a
      · simp [hk]
      · have hk' : (k == a) = false := by simpa using hk
        simp only [List.lookup, hk'] at h
        simpa using Or.inr (ih h)

lemma keysEquiv_symm (a b : List String) : keysEquiv a b = keysEquiv b a := by
  unfold keysEquiv
  exact Bool.and_comm _ _

lemma keysEquiv_mem (a b : List String) (h : keysEquiv a b = true) (o : String) :
    o ∈ a ↔ o ∈ b := by
  unfold keysEquiv at h
  rw [Bool.and_eq_true, List.all_eq_true, List.all_eq_true] at h
  constructor
  · intro ho
    exact List.elem_iff.mp (h.1 o ho)
  · intro ho
    exact List.elem_iff.mp (h.2 o ho)

lemma dictEqual_keysEquiv (a b : List (String × Bool)) (h : dictEqualBool a b = true) :
    keysEquiv (a.map (fun p => p.1)) (b.map (fun p => p.1)) = true := by
  unfold dictEqualBool at h
  rw [Bool.and_eq_true, List.all_eq_true, List.all_eq_true] at h
  unfold keysEquiv
  rw [Bool.and_eq_true, List.all_eq_true, List.all_eq_true]
  constructor
  · intro k hk
    obtain ⟨p, hp, hpk⟩ := List.mem_map.mp hk
    have := h.1 p hp
    rw [beq_iff_eq] at this
    exact List.elem_iff.mpr (hpk ▸ lookup_mem_keys p.1 b p.2 this)
  · intro k hk
    obtain ⟨p, hp, hpk⟩ := List.mem_map.mp hk
    have := h.2 p hp
    rw [beq_iff_eq] at this
    exact List.elem_iff.mpr (hpk ▸ lookup_mem_keys p.1 a p.2 this)

/-- C6 (amended): for an `always_set` variable, it is only when the
OPTIONS LIST changes (the validity keys differ) that
`update_options_validities` auto-assigns the value; the value then
becomes the first option in declaration order whose new validity is
true, and it is set whenever at least one option is valid.  A
validity-only change never re-assigns the value. -/
theorem always_set_on_options_change (v : PVar) (nv : List (String × Bool))
    (ha : v.always_set = true)
    (hk : keysEquiv (v.options_validities.map (fun p => p.1)) (nv.map (fun p => p.1)) = false) :
    (v.update_options_validities nv).value =
        ({ v with options_validities := nv } : PVar).get_first_valid_option ∧
      (∀ o, o ∈ v.options → nv.lookup o = some true →
        ((v.update_options_validities nv).value).isSome = true) := by
  have hdict : dictEqualBool nv v.options_validities = false := by
    cases hd : dictEqualBool nv v.options_validities with
    | false => rfl
    | true =>
        have := dictEqual_keysEquiv nv v.options_validities hd
        rw [keysEquiv_symm] at this
        rw [this] at hk
        cases hk
  have hval : (v.update_options_validities nv).value =
      ({ v with options_validities := nv } : PVar).get_first_valid_option := by
    unfold PVar.update_options_validities
    simp only [hdict, Bool.false_eq_true, if_false, hk, Bool.not_false, if_true, ha]
  refine ⟨hval, fun o ho hvo => ?_⟩
  rw [hval]
  unfold PVar.get_first_valid_option
  rw [List.find?_isSome]
  exact ⟨o, ho, by simp [hvo]⟩

/-- C6 (counterexample): an `always_set` variable whose validities (but
not options) change is NOT auto-assigned: here option `"a"` becomes
valid while the value stays unset, violating the claimed invariant. -/
theorem always_set_not_applied_on_validity_change :
    (⟨["a", "b"], [("a", false), ("b", false)], none, true⟩ : PVar).always_set = true ∧
      ((⟨["a", "b"], [("a", false), ("b", false)], none, true⟩ : PVar).update_options_validities
          [("a", true), ("b", false)]).options_validities.lookup "a" = some true ∧
      "a" ∈ ((⟨["a", "b"], [("a", false), ("b", false)], none, true⟩ : PVar).update_options_validities
          [("a", true), ("b", false)]).options ∧
      ((⟨["a", "b"], [("a", false), ("b", false)], none, true⟩ : PVar).update_options_validities
          [("a", true), ("b", false)]).value = none := by
  refine ⟨rfl, ?_, ?_, ?_⟩ <;> decide

/-- Witness for the amended C6 theorem at a concrete input: shrinking
the options of an `always_set` variable to `["a"]` with `"a"` valid
auto-assigns the first valid option. -/
theorem always_set_on_options_change_witness :
    ((⟨["a", "b"], [("a", false), ("b", false)], none, true⟩ : PVar).update_options_validities
        [("a", true)]).value =
      ({ (⟨["a", "b"], [("a", false), ("b", false)], none, true⟩ : PVar) with
          options_validities := [("a", true)] } : PVar).get_first_valid_option :=
  (always_set_on_options_change
    (⟨["a", "b"], [("a", false), ("b", false)], none, true⟩ : PVar)
    [("a", true)] rfl (by decide)).1

/-- The `ConfigVar.options` setter (source lines 172-187): installs the
new options list (`self._options = new_options`), registers it with the
solver, and runs `update_options_validities`, whose
`csp.get_options_validities(self)` result is supplied as `newvals`. -/
def PVar.set_options (v : PVar) (new_options : List String)
    (newvals : List (String × Bool)) : PVar :=
  PVar.update_options_validities { v with options := new_options } newvals

/-- The variable-level invariant of C7: the value is unset or an element
of the options list. -/
def PVar.invHolds (v : PVar) : Bool :=
  match v.value with
  | none => true
  | some o => v.options.contains o

lemma invHolds_find (opts : List String) (nv : List (String × Bool)) (a : Bool) :
    PVar.invHolds ⟨opts, nv, List.find? (fun opt => ((nv.lookup opt).getD false)) opts, a⟩ =
      true := by
  unfold PVar.invHolds
  cases hf : List.find? (fun opt => ((nv.lookup opt).getD false)) opts with
  | none => rfl
  | some o => simpa using List.elem_iff.mpr (List.mem_of_find?_eq_some hf)

lemma invHolds_update (v : PVar) (nv : List (String × Bool))
    (hv : PVar.invHolds v = true) :
    PVar.invHolds (v.update_options_validities nv) = true := by
  unfold PVar.update_options_validities
  simp only []
  by_cases hd : dictEqualBool nv v.options_validities = true
  · simp only [hd, if_true]
    exact hv
  · have hd' := eq_false_of_ne_true hd
    by_cases hk : keysEquiv (v.options_validities.map (fun p => p.1))
        (nv.map (fun p => p.1)) = true
    · simp only [hd', hk, Bool.not_true, Bool.false_eq_true, if_false]
      exact hv
    · have hk' := eq_false_of_ne_true hk
      by_cases ha : v.always_set = true
      · simp only [hd', hk', ha, Bool.not_false, Bool.false_eq_true, if_false, if_true]
        exact invHolds_find v.options nv v.always_set
      · have ha' := eq_false_of_ne_true ha
        by_cases hs : v.value.isSome = true
        · simp only [hd', hk', ha', hs, Bool.not_false, Bool.false_eq_true, if_false, if_true]
          rfl
        · have hs' := eq_false_of_ne_true hs
          simp only [hd', hk', ha', hs', Bool.not_false, Bool.false_eq_true, if_false, if_true]
          exact hv

lemma invHolds_set_options (v : PVar) (new_options : List String)
    (nv : List (String × Bool)) (hv : PVar.invHolds v = true)
    (hcoh : keysEquiv (v.options_validities.map (fun p => p.1)) v.options = true)
    (hnv : keysEquiv (nv.map (fun p => p.1)) new_options = true) :
    PVar.invHolds (v.set_options new_options nv) = true := by
  have hmem : ∀ o, o ∈ nv.map (fun p => p.1) → o ∈ new_options := by
    intro o h2
    exact (keysEquiv_mem _ _ hnv o).mp h2
  unfold PVar.set_options PVar.update_options_validities
  simp only []
  by_cases hd : dictEqualBool nv v.options_validities = true
  · simp only [hd, if_true]
    unfold PVar.invHolds at hv ⊢
    cases hval : v.value with
    | none => simp [hval]
    | some o =>
        simp only [hval] at hv ⊢
        have ho : o ∈ v.options := List.elem_iff.mp hv
        have h1 := (keysEquiv_mem _ _ hcoh o).mpr ho
        have h2 := (keysEquiv_mem _ _ (dictEqual_keysEquiv _ _ hd) o).mpr h1
        exact List.elem_iff.mpr (hmem o h2)
  · have hd' := eq_false_of_ne_true hd
    by_cases hk : keysEquiv (v.options_validities.map (fun p => p.1))
        (nv.map (fun p => p.1)) = true
    · simp only [hd', hk, Bool.not_true, Bool.false_eq_true, if_false]
      unfold PVar.invHolds at hv ⊢
      cases hval : v.value with
      | none => simp [hval]
      | some o =>
          simp only [hval] at hv ⊢
          have ho : o ∈ v.options := List.elem_iff.mp hv
          have h1 := (keysEquiv_mem _ _ hcoh o).mpr ho
          have h2 := (keysEquiv_mem _ _ hk o).mp h1
          exact List.elem_iff.mpr (hmem o h2)
    · have hk' := eq_false_of_ne_true hk
      by_cases ha : v.always_set = true
      · simp only [hd', hk', ha, Bool.not_false, Bool.false_eq_true, if_false, if_true]
        exact invHolds_find new_options nv v.always_set
      · have ha' := eq_false_of_ne_true ha
        by_cases hs : v.value.isSome = true
        · simp only [hd', hk', ha', hs, Bool.not_false, Bool.false_eq_true, if_false, if_true]
          rfl
        · have hs' := eq_false_of_ne_true hs
          simp only [hd', hk', ha', hs', Bool.not_false, Bool.false_eq_true, if_false, if_true]
          unfold PVar.invHolds at hv ⊢
          cases hval : v.value with
          | none => simp [hval]
          | some o => simp [hval, Option.isSome] at hs'

lemma add_assignment_ok_member (check : List Formula → Bool) (L : Logic) (var : CVar)
    (x : String) (st : Logic)
    (h : Logic.add_assignment check L var (some x) true = ⟨st, none⟩)
    (ho : var.has_options = true) : var.optList.contains x = true := by
  cases hc : var.optList.contains x with
  | true => rfl
  | false =>
      exfalso
      have hcond : (true && var.has_options && !(var.optList.contains x)) = true := by
        rw [ho, hc]
        rfl
      simp only [Logic.add_assignment, hcond, if_true] at h
      exact absurd (congrArg AssignResult.error h) (by simp)

/-- C7: the value of a variable with options is always unset or an
element of its current options list.  The invariant is preserved by the
validity refresh (`update_options_validities`, which also covers
propagation), by redeclaring options (`set_options`, given the solver
contract that validity keys track options), by a successful assignment
(`Logic.add_assignment` commits only when the value is one of the
options), and by a reset to unset. -/
theorem value_in_options_invariant :
    (∀ (v : PVar) (nv : List (String × Bool)), PVar.invHolds v = true →
      PVar.invHolds (v.update_options_validities nv) = true) ∧
    (∀ (v : PVar) (new_options : List String) (nv : List (String × Bool)),
      PVar.invHolds v = true →
      keysEquiv (v.options_validities.map (fun p => p.1)) v.options = true →
      keysEquiv (nv.map (fun p => p.1)) new_options = true →
      PVar.invHolds (v.set_options new_options nv) = true) ∧
    (∀ (check : List Formula → Bool) (L : Logic) (var : CVar) (x : String) (st : Logic),
      Logic.add_assignment check L var (some x) true = ⟨st, none⟩ →
      var.has_options = true → var.optList.contains x = true) ∧
    (∀ v : PVar, PVar.invHolds { v with value := none } = true) :=
  ⟨invHolds_update, invHolds_set_options, add_assignment_ok_member,
    fun v => by unfold PVar.invHolds; rfl⟩

/-- Witness for C7 at concrete inputs: the invariant survives a validity
refresh, an options redeclaration, a successful assignment's membership
guard, and a reset. -/
theorem value_in_options_invariant_witness :
    PVar.invHolds ((⟨["a", "b"], [("a", true), ("b", true)], some "b", false⟩ :
        PVar).update_options_validities [("a", false), ("b", true)]) = true ∧
      PVar.invHolds ((⟨["a", "b"], [("a", true), ("b", true)], some "b", false⟩ :
        PVar).set_options ["a"] [("a", true)]) = true ∧
      (ceVar.optList.contains "b") = true ∧
      PVar.invHolds ({ (⟨["a"], [("a", true)], some "a", true⟩ : PVar) with value := none }) = true :=
  ⟨value_in_options_invariant.1 _ [("a", false), ("b", true)] (by decide),
    value_in_options_invariant.2.1 _ ["a"] [("a", true)] (by decide) (by decide) (by decide),
    value_in_options_invariant.2.2.1 (fun _ => true) ceL ceVar "b"
      ((Logic.add_assignment (fun _ => true) ceL ceVar (some "b") true).state) (by decide) rfl,
    value_in_options_invariant.2.2.2 _⟩

/-- C8 (counterexample): after a successful `lock()` a second `lock()`
succeeds silently — it does not fail with an `AlreadyLocked` error, so
locking IS silently idempotent, contrary to the claim. -/
theorem lock_second_call_succeeds :
    Registry.lock ⟨["X"], false⟩ = .ok ⟨["X"], true⟩ ∧
      Registry.lock ⟨["X"], true⟩ = .ok ⟨["X"], true⟩ := by
  exact ⟨rfl, rfl⟩

/-- C8 (amended): `lock()` fails with `EmptyRegistry` exactly when no
variables have been defined; otherwise it succeeds and sets the lock
flag — including when called again after a successful lock, which
silently succeeds (the code has no `AlreadyLocked` check). -/
theorem lock_spec (R : Registry) :
    (R.vdict = [] → Registry.lock R = .error .EmptyRegistry) ∧
      (R.vdict ≠ [] → Registry.lock R = .ok { R with lockFlag := true }) := by
  constructor
  · intro h
    unfold Registry.lock
    simp [h]
  · intro h
    unfold Registry.lock
    rw [if_neg]
    simpa using h

/-- Witness for the amended C8 theorem at concrete inputs: the empty
registry fails with `EmptyRegistry`, and a nonempty, already-locked
registry locks again without error. -/
theorem lock_spec_witness :
    Registry.lock ⟨[], false⟩ = .error .EmptyRegistry ∧
      Registry.lock ⟨["X"], true⟩ = .ok ⟨["X"], true⟩ :=
  ⟨(lock_spec ⟨[], false⟩).1 rfl, (lock_spec ⟨["X"], true⟩).2 (by simp)⟩

/-- C9: an assignment of a value outside a variable's options fails with
the `NotAnOption` message regardless of the solver (the rejection
happens before any satisfiability check), defining an existing name
fails with `Redefinition`, and defining a new name after `lock()` fails
with `RegistryLocked`. -/
theorem definition_and_option_guards :
    (∀ (check : List Formula → Bool) (L : Logic) (var : CVar) (x : String),
      var.has_options = true → var.optList.contains x = false →
      Logic.add_assignment check L var (some x) true =
        ⟨{ L with asrt_assignments := (reinsert (removeKey var.name L.asrt_assignments)
            var.name (L.asrt_assignments.lookup var.name)) },
          some (formatNotAnOption var.name x)⟩) ∧
    (∀ (R : Registry) (name : String), R.vdict.contains name = true →
      Registry.defineVar R name = .error .Redefinition) ∧
    (∀ (R : Registry) (name : String), R.vdict.contains name = false → R.lockFlag = true →
      Registry.defineVar R name = .error .RegistryLocked) := by
  refine ⟨fun check L var x ho hc => ?_, fun R name h => ?_, fun R name h hl => ?_⟩
  · have hcond : (true && var.has_options && !(var.optList.contains x)) = true := by
      rw [ho, hc]
      rfl
    simp only [Logic.add_assignment, hcond, if_true]
  · unfold Registry.defineVar
    rw [h]
    rfl
  · unfold Registry.defineVar
    rw [h, hl]
    rfl

/-- Witness for C9 at concrete inputs: assigning `"zz"` (not an option)
fails with the `NotAnOption` message under two different solvers,
re-defining `"V"` fails with `Redefinition`, and defining `"W"` in a
locked registry fails with `RegistryLocked`. -/
theorem definition_and_option_guards_witness :
    Logic.add_assignment ceCheck ceL ceVar (some "zz") true =
        ⟨{ ceL with asrt_assignments := (reinsert (removeKey ceVar.name ceL.asrt_assignments)
            ceVar.name (ceL.asrt_assignments.lookup ceVar.name)) },
          some (formatNotAnOption ceVar.name "zz")⟩ ∧
      Logic.add_assignment (fun _ => true) ceL ceVar (some "zz") true =
        ⟨{ ceL with asrt_assignments := (reinsert (removeKey ceVar.name ceL.asrt_assignments)
            ceVar.name (ceL.asrt_assignments.lookup ceVar.name)) },
          some (formatNotAnOption ceVar.name "zz")⟩ ∧
      Registry.defineVar ⟨["V"], false⟩ "V" = .error .Redefinition ∧
      Registry.defineVar ⟨["V"], true⟩ "W" = .error .RegistryLocked :=
  ⟨definition_and_option_guards.1 ceCheck ceL ceVar "zz" rfl (by decide),
    definition_and_option_guards.1 (fun _ => true) ceL ceVar "zz" rfl (by decide),
    definition_and_option_guards.2.1 ⟨["V"], false⟩ "V" (by decide),
    definition_and_option_guards.2.2 ⟨["V"], true⟩ "W" (by decide) rfl⟩

lemma nodup_subset_length {l₁ l₂ : List String} (h : l₁.Nodup) (hs : l₁ ⊆ l₂) :
    l₁.length ≤ l₂.length :=
  (List.subperm_of_subset h hs).length_le

lemma nodup_append_new (l₁ l₂ : List String) (h1 : l₁.Nodup) (h2 : l₂.Nodup) :
    (l₁ ++ l₂.filter (fun w => !(l₁.contains w))).Nodup := by
  rw [List.nodup_append]
  refine ⟨h1, h2.filter _, ?_⟩
  intro x hx hx2
  have h3 := List.of_mem_filter hx2
  simp at h3
  exact h3 hx

lemma updateLoop_terminates (related : String → List String) (hasOpts : String → Bool)
    (newVal : String → List (String × Bool)) (U : List String)
    (hrelsub : ∀ v, v ∈ U → ∀ w, w ∈ related v → w ∈ U)
    (hrnodup : ∀ v, v ∈ U → (related v).Nodup) :
    ∀ (fuel : Nat) (affected : List String) (ivar : Nat) (vals : Vals),
      affected.Nodup → affected ⊆ U → U.length ≤ fuel + ivar →
      ∃ out, updateLoop related hasOpts newVal fuel affected ivar vals = some out ∧
        out.2.Nodup ∧ out.2 ⊆ U := by
  intro fuel
  induction fuel with
  | zero =>
      intro affected ivar vals hnd hsub hlen
      have hle : affected.length ≤ U.length := nodup_subset_length hnd hsub
      have hno : ¬ (ivar < affected.length) := by omega
      rw [updateLoop, dif_neg hno]
      exact ⟨(vals, affected), rfl, hnd, hsub⟩
  | succ fuel ih =>
      intro affected ivar vals hnd hsub hlen
      by_cases hguard : ivar < affected.length
      · rw [updateLoop, dif_pos hguard]
        simp only []
        have hvarmem : affected.get ⟨ivar, hguard⟩ ∈ affected := List.get_mem affected ivar hguard
        have hvarU : affected.get ⟨ivar, hguard⟩ ∈ U := hsub hvarmem
        by_cases ho : hasOpts (affected.get ⟨ivar, hguard⟩) = true
        · rw [if_pos ho]
          by_cases hne : newVal (affected.get ⟨ivar, hguard⟩) ≠
              (((vals : List (String × List (String × Bool))).lookup
                (affected.get ⟨ivar, hguard⟩)).getD [])
          · rw [if_pos hne]
            refine ih _ _ _ ?_ ?_ (by omega)
            · exact nodup_append_new affected _ hnd (hrnodup _ hvarU)
            · intro y hy
              rcases List.mem_append.mp hy with hy1 | hy2
              · exact hsub hy1
              · exact hrelsub _ hvarU y (List.mem_of_mem_filter hy2)
          · rw [if_neg hne]
            exact ih _ _ _ hnd hsub (by omega)
        · rw [if_neg ho]
          exact ih _ _ _ hnd hsub (by omega)
      · rw [updateLoop, dif_neg hguard]
        exact ⟨(vals, affected), rfl, hnd, hsub⟩

/-- C5: the propagation pass of `Logic._update_all_options_validities`
terminates with fuel equal to the size of any duplicate-free variable
universe closed under the `_related_vars` edges (in particular the set
of variables reachable from the assigned variable): the worklist stays
duplicate-free, so each variable is recomputed at most once, and the
number of processed entries is bounded by the universe size. -/
theorem propagation_terminates (related : String → List String) (hasOpts : String → Bool)
    (newVal : String → List (String × Bool)) (U : List String) (invoker : String)
    (vals : Vals)
    (hinv : invoker ∈ U)
    (hrelsub : ∀ v, v ∈ U → ∀ w, w ∈ related v → w ∈ U)
    (hrnodup : ∀ v, v ∈ U → (related v).Nodup)
    (hself : ∀ v, v ∈ U → v ∉ related v) :
    ∃ out, update_all_options_validities related hasOpts newVal U.length invoker vals =
        some out ∧
      out.2.Nodup ∧ out.2 ⊆ U ∧ out.2.length ≤ U.length := by
  have hnd : (invoker :: related invoker).Nodup := by
    rw [List.nodup_cons]
    exact ⟨hself invoker hinv, hrnodup invoker hinv⟩
  have hsub : (invoker :: related invoker) ⊆ U := by
    intro y hy
    rcases List.mem_cons.mp hy with h | h
    · exact h ▸ hinv
    · exact hrelsub invoker hinv y h
  obtain ⟨out, hout, hnd', hsub'⟩ := updateLoop_terminates related hasOpts newVal U
    hrelsub hrnodup U.length (invoker :: related invoker) 1 vals hnd hsub (by omega)
  exact ⟨out, hout, hnd', hsub', nodup_subset_length hnd' hsub'⟩

/-- Witness for C5 at a concrete input: two mutually related variables,
starting from invoker `"A"`, with universe `["A", "B"]`. -/
theorem propagation_terminates_witness :
    ∃ out, update_all_options_validities
        (fun v => if v = "A" then ["B"] else if v = "B" then ["A"] else [])
        (fun _ => true) (fun _ => [("x", true)]) (["A", "B"] : List String).length "A" [] =
        some out ∧
      out.2.Nodup ∧ out.2 ⊆ ["A", "B"] ∧ out.2.length ≤ (["A", "B"] : List String).length :=
  propagation_terminates
    (fun v => if v = "A" then ["B"] else if v = "B" then ["A"] else [])
    (fun _ => true) (fun _ => [("x", true)]) ["A", "B"] "A" []
    (by decide) (by decide) (by decide) (by decide)

/-- The full satisfiability query `Logic.add_assignment` issues for the
assignment `vname := x` in state `L` (solver contents plus the
relational assertions). -/
def c4q (L : Logic) (vname x : String) : List Formula :=
  assignBase (removeKey vname L.asrt_assignments) L vname x ++
    L.asrt_relationals.map (fun p => p.1)

/-- State after `COMPSET_MODE := "Custom"` commits. -/
def c4L1 : Logic :=
  ⟨[("COMPSET_MODE", Formula.eqc "COMPSET_MODE" "Custom")], mkOptionAsrts c4optLists, c4rels⟩

/-- State after `INITTIME := "2000"` commits. -/
def c4L2 : Logic :=
  ⟨[("COMPSET_MODE", Formula.eqc "COMPSET_MODE" "Custom"),
    ("INITTIME", Formula.eqc "INITTIME" "2000")], mkOptionAsrts c4optLists, c4rels⟩

/-- State after `COMP_ATM := "cam"` commits. -/
def c4L3 : Logic :=
  ⟨[("COMPSET_MODE", Formula.eqc "COMPSET_MODE" "Custom"),
    ("INITTIME", Formula.eqc "INITTIME" "2000"),
    ("COMP_ATM", Formula.eqc "COMP_ATM" "cam")], mkOptionAsrts c4optLists, c4rels⟩

/-- The k-th prefix query of the relational scan for the failing
`COMP_ICE := "dice"` assignment. -/
def c4p (k : Nat) : List Formula :=
  assignBase (removeKey "COMP_ICE" c4L3.asrt_assignments) c4L3 "COMP_ICE" "dice" ++
    (c4rels.take k).map (fun p => p.1)

lemma c4_unsat_q4 : ¬ Satisfiable (c4q c4L3 "COMP_ICE" "dice") := by
  rintro ⟨m, hm⟩
  rw [List.all_eq_true] at hm
  have hATM := hm (Formula.eqc "COMP_ATM" "cam") (by decide)
  have hICE := hm (Formula.eqc "COMP_ICE" "dice") (by decide)
  have hr3 := hm c4r3 (by decide)
  simp only [Formula.eval, c4r3, Formula.nec] at hATM hICE hr3
  rw [hATM, hICE] at hr3
  simp at hr3

lemma c4_unsat_p3 : ¬ Satisfiable (c4p 3) := by
  rintro ⟨m, hm⟩
  rw [List.all_eq_true] at hm
  have hATM := hm (Formula.eqc "COMP_ATM" "cam") (by decide)
  have hICE := hm (Formula.eqc "COMP_ICE" "dice") (by decide)
  have hr3 := hm c4r3 (by decide)
  simp only [Formula.eval, c4r3, Formula.nec] at hATM hICE hr3
  rw [hATM, hICE] at hr3
  simp at hr3

lemma add_assignment_ok (check : List Formula → Bool) (L : Logic) (var : CVar) (x : String)
    (hmem : (true && var.has_options && !(var.optList.contains x)) = false)
    (hsat : check (assignBase (removeKey var.name L.asrt_assignments) L var.name x ++
      L.asrt_relationals.map (fun p => p.1)) = true) :
    Logic.add_assignment check L var (some x) true =
      ⟨{ L with asrt_assignments := removeKey var.name L.asrt_assignments ++
          [(var.name, Formula.eqc var.name x)] }, none⟩ := by
  simp only [Logic.add_assignment, hmem, Bool.false_eq_true, if_false, hsat, Bool.not_true,
    Bool.and_false, if_false]

/-- The error message of relation 3 of `relational_assertions.py`. -/
def msgCAM : String := "CAM cannot be coupled with Data ICE."

/-- C4: under the standard relational assertion set, for every solver
that answers the seven queries of the scenario correctly, after
`COMPSET_MODE := "Custom"`, `INITTIME := "2000"`, and
`COMP_ATM := "cam"` succeed, the assignment `COMP_ICE := "dice"` fails
with a `ConstraintViolation` whose message contains
"CAM cannot be coupled with Data ICE." -/
theorem scenarioC4_rejected (check : List Formula → Bool)
    (h1 : check (c4q c4L0 "COMPSET_MODE" "Custom") = true ↔
      Satisfiable (c4q c4L0 "COMPSET_MODE" "Custom"))
    (h2 : check (c4q c4L1 "INITTIME" "2000") = true ↔
      Satisfiable (c4q c4L1 "INITTIME" "2000"))
    (h3 : check (c4q c4L2 "COMP_ATM" "cam") = true ↔
      Satisfiable (c4q c4L2 "COMP_ATM" "cam"))
    (h4 : check (c4q c4L3 "COMP_ICE" "dice") = true ↔
      Satisfiable (c4q c4L3 "COMP_ICE" "dice"))
    (h5 : check (c4p 1) = true ↔ Satisfiable (c4p 1))
    (h6 : check (c4p 2) = true ↔ Satisfiable (c4p 2))
    (h7 : check (c4p 3) = true ↔ Satisfiable (c4p 3)) :
    (runC4 check).error = some (formatViolation "COMP_ICE" "dice" msgCAM) ∧
      formatViolation "COMP_ICE" "dice" msgCAM =
        "COMP_ICE=dice violates assertion:\"" ++ msgCAM ++ "\"" := by
  have e1 : Logic.add_assignment check c4L0 (c4var "COMPSET_MODE") (some "Custom") true =
      ⟨c4L1, none⟩ :=
    add_assignment_ok check c4L0 (c4var "COMPSET_MODE") "Custom" (by decide)
      (h1.mpr ⟨c4model1, by decide⟩)
  have e2 : Logic.add_assignment check c4L1 (c4var "INITTIME") (some "2000") true =
      ⟨c4L2, none⟩ :=
    add_assignment_ok check c4L1 (c4var "INITTIME") "2000" (by decide)
      (h2.mpr ⟨c4model1, by decide⟩)
  have e3 : Logic.add_assignment check c4L2 (c4var "COMP_ATM") (some "cam") true =
      ⟨c4L3, none⟩ :=
    add_assignment_ok check c4L2 (c4var "COMP_ATM") "cam" (by decide)
      (h3.mpr ⟨c4model1, by decide⟩)
  have hfull : check (assignBase (removeKey (c4var "COMP_ICE").name c4L3.asrt_assignments)
      c4L3 (c4var "COMP_ICE").name "dice" ++
      c4L3.asrt_relationals.map (fun p => p.1)) = false :=
    eq_false_of_ne_true (fun hb => c4_unsat_q4 (h4.mp hb))
  have hpre : ∀ k, k < ([(c4r1, "If COMP_ICE is stub, all other components must be stub (except for ATM)"),
      (c4r2, "MOM6 cannot be coupled with data wave component.")] :
        List (Formula × String)).length →
      check (assignBase (removeKey (c4var "COMP_ICE").name c4L3.asrt_assignments) c4L3
        (c4var "COMP_ICE").name "dice" ++
        (([(c4r1, "If COMP_ICE is stub, all other components must be stub (except for ATM)"),
          (c4r2, "MOM6 cannot be coupled with data wave component.")] :
            List (Formula × String)).take (k + 1)).map (fun p => p.1)) = true := by
    intro k hk
    simp only [List.length_cons, List.length_nil] at hk
    have hk2 : k = 0 ∨ k = 1 := by omega
    rcases hk2 with rfl | rfl
    · exact h5.mpr ⟨c4model2, by decide⟩
    · exact h6.mpr ⟨c4model2, by decide⟩
  have hf : check (assignBase (removeKey (c4var "COMP_ICE").name c4L3.asrt_assignments) c4L3
      (c4var "COMP_ICE").name "dice" ++
      ([(c4r1, "If COMP_ICE is stub, all other components must be stub (except for ATM)"),
        (c4r2, "MOM6 cannot be coupled with data wave component.")] :
          List (Formula × String)).map (fun p => p.1) ++ [c4r3]) = false :=
    eq_false_of_ne_true (fun hb => c4_unsat_p3 (h7.mp hb))
  have e4 := add_assignment_reports_first_violation check c4L3 (c4var "COMP_ICE") "dice"
    [(c4r1, "If COMP_ICE is stub, all other components must be stub (except for ATM)"),
      (c4r2, "MOM6 cannot be coupled with data wave component.")]
    c4r3 msgCAM (c4rels.drop 3) (by decide) (by decide) hfull hpre hf
  refine ⟨?_, rfl⟩
  unfold runC4
  simp only [e1, e2, e3, e4]
  rfl

/-- Witness for C4 at a concrete input: the two-model solver `chkC4`
answers all seven scenario queries correctly, and the scenario fails
with the CAM/Data-ICE violation message. -/
theorem scenarioC4_rejected_witness :
    (runC4 chkC4).error = some (formatViolation "COMP_ICE" "dice" msgCAM) ∧
      formatViolation "COMP_ICE" "dice" msgCAM =
        "COMP_ICE=dice violates assertion:\"" ++ msgCAM ++ "\"" :=
  scenarioC4_rejected chkC4
    (iff_of_true (by decide) ⟨c4model1, by decide⟩)
    (iff_of_true (by decide) ⟨c4model1, by decide⟩)
    (iff_of_true (by decide) ⟨c4model1, by decide⟩)
    (iff_of_false (by decide) c4_unsat_q4)
    (iff_of_true (by decide) ⟨c4model2, by decide⟩)
    (iff_of_true (by decide) ⟨c4model2, by decide⟩)
    (iff_of_false (by decide) c4_unsat_p3)
